import Mathlib

/-!
Verification of the ComfyUI worker handler (src/handler.py).

The Python functions are shallowly embedded as Lean definitions.  External
effects (HTTP requests, websocket receives, S3 calls, the filesystem) are
modelled by explicit oracles passed in as parameters, so that every branch
of the source code becomes a branch of a total Lean function.
-/

namespace ComfyWorker

/-- Structured Python values as produced by `json.loads` or given as the
runpod job input.  Python `None` is `.null`. -/
inductive JValue where
  | null
  | bool (b : Bool)
  | num (n : Int)
  | str (s : String)
  | arr (xs : List JValue)
  | dict (fields : List (String × JValue))

/-- Python `dict.get(key)`: the stored value, or `None` when the key is
absent. -/
def dictGet (fields : List (String × JValue)) (key : String) : JValue :=
  match fields.find? (fun p => p.1 == key) with
  | some p => p.2
  | none => .null

/-- Prefix test on character lists (helper for Python substring tests). -/
def startsWithChars : List Char → List Char → Bool
  | [], _ => true
  | _ :: _, [] => false
  | a :: as, b :: bs => a == b && startsWithChars as bs

/-- Substring test on character lists (Python `needle in haystack` for
strings). -/
def hasSubChars (needle : List Char) : List Char → Bool
  | [] => startsWithChars needle []
  | b :: bs => startsWithChars needle (b :: bs) || hasSubChars needle bs

/-- Python membership `needle in v`: key membership for dicts, substring
test for strings, element equality for lists, and a `TypeError` for values
that do not support membership tests. -/
def pyContains (needle : String) : JValue → Except String Bool
  | .dict fields => .ok (fields.any (fun p => p.1 == needle))
  | .str s => .ok (hasSubChars needle.data s.data)
  | .arr xs => .ok (xs.any (fun x => match x with | .str t => t == needle | _ => false))
  | _ => .error "TypeError"

/-- Lazy evaluation of `all("name" in m and "media" in m for m in media_list)`
(handler.py line 295-297): short-circuits on the first failing element, so a
later element that would raise is never inspected. -/
def checkMediaElems : List JValue → Except String Bool
  | [] => .ok true
  | m :: rest =>
    match pyContains "name" m with
    | .error e => .error e
    | .ok false => .ok false
    | .ok true =>
      match pyContains "media" m with
      | .error e => .error e
      | .ok false => .ok false
      | .ok true => checkMediaElems rest

/-- The validated job returned by `validate_input` on success:
`{"workflow": workflow, "media": media_list}`. -/
structure Job where
  workflow : JValue
  media : JValue

/-- Result of a call to `validate_input`: either the function raised an
uncaught exception, or it returned the pair `(validated_data, error_message)`. -/
inductive VResult where
  | raised (exc : String)
  | returned (validated : Option Job) (errMsg : Option String)

def missingWorkflowMsg : String := "Missing \x27workflow\x27 parameter"

def malformedMediaMsg : String :=
  "\x27media\x27 must be a list of objects with \x27name\x27 and \x27media\x27 keys"

/-- Python `v is None`. -/
def jIsNull : JValue → Bool
  | .null => true
  | _ => false

/-- Validation after the `None` check and optional JSON parse
(handler.py lines 289-303).  `job_input.get(...)` only exists on dicts:
any other value raises `AttributeError`.  The `workflow is None` and
`media_list is not None` tests of the source are the two `jIsNull`
tests. -/
def validateParsed (v : JValue) : VResult :=
  match v with
  | .dict fields =>
    if jIsNull (dictGet fields "workflow") = true then
      .returned none (some missingWorkflowMsg)
    else if jIsNull (dictGet fields "media") = true then
      .returned (some ⟨dictGet fields "workflow", .null⟩) none
    else
      match dictGet fields "media" with
      | .arr xs =>
        match checkMediaElems xs with
        | .error e => .raised e
        | .ok true => .returned (some ⟨dictGet fields "workflow", .arr xs⟩) none
        | .ok false => .returned none (some malformedMediaMsg)
      | _ => .returned none (some malformedMediaMsg)
  | _ => .raised "AttributeError"

/-- `validate_input` (handler.py lines 269-303).  `parse` is the oracle for
`json.loads`: `none` models a `json.JSONDecodeError`. -/
def validate_input (parse : String → Option JValue) (jobInput : JValue) : VResult :=
  match jobInput with
  | .null => .returned none (some "Please provide input")
  | .str s =>
    match parse s with
    | none => .returned none (some "Invalid JSON format in input")
    | some v => validateParsed v
  | v => validateParsed v

/-- Media elements of a dict payload are all dicts (so the membership tests
inside `validate_input` cannot raise `TypeError`). -/
def mediaElemsSafe (fields : List (String × JValue)) : Bool :=
  match dictGet fields "media" with
  | .arr xs => xs.all (fun x => match x with | .dict _ => true | _ => false)
  | _ => true

/-- Payloads on which `validate_input` does not raise: `None`, strings that
fail to parse or parse to a dict, and dicts — with media elements that are
dicts. -/
def safeInput (parse : String → Option JValue) : JValue → Bool
  | .null => true
  | .str s =>
    match parse s with
    | none => true
    | some (.dict fields) => mediaElemsSafe fields
    | some _ => false
  | .dict fields => mediaElemsSafe fields
  | _ => false

/-- The dict `validate_input` works on after the optional JSON parse, when
there is one. -/
def effectiveFields (parse : String → Option JValue) : JValue → Option (List (String × JValue))
  | .dict fields => some fields
  | .str s =>
    match parse s with
    | some (.dict fields) => some fields
    | _ => none
  | _ => none

/-- Items of the published output media list (`output_data` entries in
handler.py). -/
structure OutputItem where
  filename : String
  dtype : String
  data : String
  s3Key : Option String
deriving Repr, DecidableEq

/-- Values returned by `handler`: either an error object
`{"error": ..., "details"?: ...}` or a success payload
`{"media": ..., "errors"?: ..., "status"?: ...}`. -/
inductive HandlerRet where
  | errorRet (message : String) (details : Option (List String))
  | okRet (media : List OutputItem) (errors : List String) (status : Option String)
deriving Repr, DecidableEq

/-- Final result assembly (handler.py lines 856-877). -/
def assembleResult (outputData : List OutputItem) (errors : List String) : HandlerRet :=
  match outputData, errors with
  | [], [] => .okRet [] [] (some "success_no_media")
  | [], e :: es => .errorRet "Job processing failed" (some (e :: es))
  | o :: od, es => .okRet (o :: od) es none

/-! ### Readiness probe (`check_server`, handler.py lines 306-335)

One attempt is one `requests.get`: `some status` is a response with that
HTTP status code, `none` is a `requests.Timeout` / `requests.RequestException`
(both are swallowed by the loop).  The sleep between attempts has no
observable effect on the returned value and is not modelled. -/

/-- The `for i in range(retries)` loop of `check_server`, with `i` the next
attempt index and the remaining attempt count as fuel. -/
def checkServerLoop (att : Nat → Option Nat) : Nat → Nat → Bool
  | _, 0 => false
  | i, fuel + 1 =>
    if att i = some 200 then true
    else checkServerLoop att (i + 1) fuel

/-- `check_server(url, retries, delay)` (handler.py lines 306-335). -/
def check_server (att : Nat → Option Nat) (retries : Nat) : Bool :=
  checkServerLoop att 0 retries

def engineUnreachableMsg : String :=
  "ComfyUI server (127.0.0.1:8188) not reachable after multiple retries."

/-- The readiness step of `handler` (lines 619-626): `none` means the
handler proceeds, `some e` means it returns the error object `e`.  The
handler calls `check_server` with `COMFY_API_AVAILABLE_MAX_RETRIES = 500`. -/
def handlerReadiness (att : Nat → Option Nat) : Option HandlerRet :=
  if check_server att 500 then none
  else some (.errorRet engineUnreachableMsg none)

/-! ### Input media upload (`upload_media`, handler.py lines 338-428) -/

/-- One entry of the validated `media` list.  `none` in a field models the
key being absent from the dict (`media["..."]` then raises `KeyError`,
caught by the per-item `except Exception`).  `mtype` models the `"type"`
key. -/
structure MediaItem where
  name : Option String
  media : Option String
  mtype : Option String
deriving Repr, DecidableEq

/-- Effect oracle for one media item: outcome of the base64 decode, the
`requests.get` download, the S3 download, and the staging POST to
`/upload/image`. -/
structure ItemEnv where
  decodeOk : Bool
  webOk : Bool
  s3Ok : Bool
  postOk : Bool
deriving Repr, DecidableEq

/-- The loop body of `upload_media` for a single item (lines 362-413):
`.ok` is an entry appended to `responses`, `.error` an entry appended to
`upload_errors`.  Every exception raised in the body is caught by one of
the `except` clauses and converted to an error string. -/
def processMediaItem (env : ItemEnv) (m : MediaItem) : Except String String :=
  match m.name with
  | none => .error "Unexpected error uploading unknown: KeyError name"
  | some name =>
    match m.media with
    | none => .error ("Unexpected error uploading " ++ name ++ ": KeyError media")
    | some _ =>
      match m.mtype with
      | none => .error ("Unexpected error uploading " ++ name ++ ": KeyError type")
      | some t =>
        let post : Except String String :=
          if env.postOk then .ok ("Successfully uploaded " ++ name)
          else .error ("Error uploading " ++ name ++ ": upload request failed")
        if t = "base64" then
          if env.decodeOk then post
          else .error ("Error decoding base64 for " ++ name ++ ": invalid data")
        else if t = "web" then
          if env.webOk then post
          else .error ("Error uploading " ++ name ++ ": download failed")
        else if t = "s3" then
          if env.s3Ok then post
          else .error ("Unexpected error uploading " ++ name ++ ": S3 download failed")
        else .error ("Unexpected error uploading " ++ name ++ ": Unknown media type " ++ t)

/-- Report returned by `upload_media`. -/
structure Report where
  status : String
  message : String
  details : List String
deriving Repr, DecidableEq

/-- Accumulation of `responses` and `upload_errors` over the media list. -/
def uploadLoop (env : MediaItem → ItemEnv) :
    List MediaItem → List String × List String → List String × List String
  | [], acc => acc
  | m :: rest, (resps, errs) =>
    match processMediaItem (env m) m with
    | .ok msg => uploadLoop env rest (resps ++ [msg], errs)
    | .error e => uploadLoop env rest (resps, errs ++ [e])

/-- `upload_media(media_list)` (handler.py lines 338-428). -/
def upload_media (env : MediaItem → ItemEnv) (mediaList : List MediaItem) : Report :=
  match mediaList with
  | [] => ⟨"success", "No media to upload", []⟩
  | _ =>
    let acc := uploadLoop env mediaList ([], [])
    match acc.2 with
    | [] => ⟨"success", "All media uploaded successfully", acc.1⟩
    | e :: es => ⟨"error", "Some media failed to upload", e :: es⟩

/-- Whether the loop body fails for this item (its entry goes to
`upload_errors`). -/
def itemErr (env : ItemEnv) (m : MediaItem) : Option String :=
  match processMediaItem env m with
  | .error e => some e
  | .ok _ => none

/-- The `responses` entries contributed by a media list. -/
def oksOf (env : MediaItem → ItemEnv) (l : List MediaItem) : List String :=
  l.filterMap (fun m =>
    match processMediaItem (env m) m with
    | .ok s => some s
    | .error _ => none)

/-- The `upload_errors` entries contributed by a media list. -/
def errsOf (env : MediaItem → ItemEnv) (l : List MediaItem) : List String :=
  l.filterMap (fun m => itemErr (env m) m)

/-! ### Websocket reconnection (`_attempt_websocket_reconnect`,
handler.py lines 201-266) -/

/-- Effect oracle for the reconnect protocol: `reachable i` is the result
of the HTTP probe `_comfy_server_status()` before attempt `i`, and
`connectOk url i` whether the websocket handshake `new_ws.connect(url)` of
attempt `i` succeeds. -/
structure ReconnEnv where
  reachable : Nat → Bool
  connectOk : String → Nat → Bool

/-- Outcome of `_attempt_websocket_reconnect`: a connected socket obtained
at a given attempt index, or one of the two
`WebSocketConnectionClosedException` raises. -/
inductive ReconnResult where
  | connected (attempt : Nat)
  | unreachableAbort
  | exhausted
deriving Repr, DecidableEq

/-- The `for attempt in range(max_attempts)` loop, with the next attempt
index and remaining attempts as fuel.  Also returns the list of URLs passed
to `new_ws.connect` (one per handshake actually attempted). -/
def reconnectLoop (env : ReconnEnv) (wsUrl : String) :
    Nat → Nat → ReconnResult × List String
  | _, 0 => (.exhausted, [])
  | i, fuel + 1 =>
    if env.reachable i = false then (.unreachableAbort, [])
    else if env.connectOk wsUrl i then (.connected i, [wsUrl])
    else
      ((reconnectLoop env wsUrl (i + 1) fuel).1,
        wsUrl :: (reconnectLoop env wsUrl (i + 1) fuel).2)

/-- `_attempt_websocket_reconnect(ws_url, max_attempts, delay_s, err)`
(handler.py lines 201-266). -/
def attempt_websocket_reconnect (env : ReconnEnv) (wsUrl : String) (maxAttempts : Nat) :
    ReconnResult × List String :=
  reconnectLoop env wsUrl 0 maxAttempts

/-! ### Event stream monitor (handler.py lines 667-721) -/

/-- The `data` dict of a websocket JSON message; `none` models an absent
key or Python `None` (both make `data.get(...)` return `None`). -/
structure MsgData where
  node : Option String
  promptId : Option String
  nodeType : Option String
  nodeId : Option String
  excMessage : Option String
deriving Repr, DecidableEq

/-- One `ws.recv()` outcome, classified the way the loop body classifies
it: a parsed JSON text frame, a binary frame, a text frame that fails
`json.loads`, a receive timeout, or an abrupt connection close (which
carries the oracle for the subsequent reconnect protocol). -/
inductive Frame where
  | text (mtype : Option String) (data : MsgData)
  | binaryFrame
  | invalidJson
  | timeoutFrame
  | closedFrame (env : ReconnEnv)

/-- Python string interpolation of an optional value (`None` prints as
`"None"`). -/
def pyOptStr (o : Option String) : String := o.getD "None"

/-- The error string recorded for a matching `execution_error` event
(handler.py lines 693-695). -/
def executionErrorDetails (d : MsgData) : String :=
  "Workflow execution error: Node Type: " ++ pyOptStr d.nodeType ++
    ", Node ID: " ++ pyOptStr d.nodeId ++ ", Message: " ++ pyOptStr d.excMessage

/-- How the `while True` monitoring loop ends: a normal exit via `break`
or stream end (with the final `execution_done` flag and `errors` list), or
an exception propagating out of the loop. -/
inductive LoopExit where
  | normalExit (executionDone : Bool) (errors : List String)
  | excRaised (excClass : String) (excMsg : String) (errors : List String)

def unreachableReconnectMsg : String :=
  "ComfyUI HTTP unreachable during websocket reconnect"

def reconnectExhaustedMsg : String :=
  "Connection closed and failed to reconnect."

/-- The monitoring loop (handler.py lines 669-716) over a finite stream of
receive outcomes.  Running out of frames models the loop ending without
`break`.  A `closedFrame` runs `_attempt_websocket_reconnect` with the same
`ws_url` and `WEBSOCKET_RECONNECT_ATTEMPTS` (`maxA`); on success the loop
continues, otherwise the `WebSocketConnectionClosedException` propagates. -/
def monitorLoop (pid wsUrl : String) (maxA : Nat) :
    List Frame → List String → LoopExit
  | [], errors => .normalExit false errors
  | .text mtype d :: rest, errors =>
    match mtype with
    | some t =>
      if t = "executing" then
        if d.node = none ∧ d.promptId = some pid then .normalExit true errors
        else monitorLoop pid wsUrl maxA rest errors
      else if t = "execution_error" then
        if d.promptId = some pid then
          .normalExit false (errors ++ [executionErrorDetails d])
        else monitorLoop pid wsUrl maxA rest errors
      else monitorLoop pid wsUrl maxA rest errors
    | none => monitorLoop pid wsUrl maxA rest errors
  | .binaryFrame :: rest, errors => monitorLoop pid wsUrl maxA rest errors
  | .invalidJson :: rest, errors => monitorLoop pid wsUrl maxA rest errors
  | .timeoutFrame :: rest, errors => monitorLoop pid wsUrl maxA rest errors
  | .closedFrame env :: rest, errors =>
    match (attempt_websocket_reconnect env wsUrl maxA).1 with
    | .connected _ => monitorLoop pid wsUrl maxA rest errors
    | .unreachableAbort =>
      .excRaised "WebSocketConnectionClosedException" unreachableReconnectMsg errors
    | .exhausted =>
      .excRaised "WebSocketConnectionClosedException" reconnectExhaustedMsg errors

def incompleteMonitoringMsg : String :=
  "Workflow monitoring loop exited without confirmation of completion or error."

/-- Outcome of the monitor phase as seen by the rest of the handler. -/
inductive MonitorOutcome where
  | proceed (executionDone : Bool) (errors : List String)
  | raisedExc (excClass : String) (excMsg : String) (errors : List String)

/-- The monitoring loop followed by the guard of handler.py lines 718-721:
`if not execution_done and not errors: raise ValueError(...)`. -/
def monitorAndCheck (pid wsUrl : String) (maxA : Nat) (frames : List Frame) :
    MonitorOutcome :=
  match monitorLoop pid wsUrl maxA frames [] with
  | .normalExit done errors =>
    if done = false ∧ errors = [] then
      .raisedExc "ValueError" incompleteMonitoringMsg errors
    else .proceed done errors
  | .excRaised cls msg errors => .raisedExc cls msg errors

/-! ### Base64 (inline publication path, handler.py lines 808-822)

`base64.b64encode` / `base64.b64decode` on byte strings, with bytes as
natural numbers below 256. -/

/-- The base64 alphabet: index 0-63 to character. -/
def b64EncChar (n : Nat) : Char :=
  if n < 26 then Char.ofNat (65 + n)
  else if n < 52 then Char.ofNat (97 + (n - 26))
  else if n < 62 then Char.ofNat (48 + (n - 52))
  else if n = 62 then Char.ofNat 43
  else Char.ofNat 47

/-- Inverse of the base64 alphabet; `none` for characters outside it
(including the padding character). -/
def b64DecChar (c : Char) : Option Nat :=
  if 65 ≤ c.toNat ∧ c.toNat ≤ 90 then some (c.toNat - 65)
  else if 97 ≤ c.toNat ∧ c.toNat ≤ 122 then some (26 + (c.toNat - 97))
  else if 48 ≤ c.toNat ∧ c.toNat ≤ 57 then some (52 + (c.toNat - 48))
  else if c.toNat = 43 then some 62
  else if c.toNat = 47 then some 63
  else none

/-- The padding character. -/
def b64Pad : Char := Char.ofNat 61

/-- `base64.b64encode`: three bytes become four characters; a remainder of
one or two bytes is padded with `=`. -/
def b64encode : List Nat → List Char
  | [] => []
  | [a] => [b64EncChar (a / 4), b64EncChar (a % 4 * 16), b64Pad, b64Pad]
  | [a, b] =>
    [b64EncChar (a / 4), b64EncChar (a % 4 * 16 + b / 16),
     b64EncChar (b % 16 * 4), b64Pad]
  | a :: b :: c :: rest =>
    b64EncChar (a / 4) :: b64EncChar (a % 4 * 16 + b / 16) ::
      b64EncChar (b % 16 * 4 + c / 64) :: b64EncChar (c % 64) :: b64encode rest

/-- `base64.b64decode`: four characters back to three bytes, with the two
padded forms allowed only as the final group. -/
def b64decodeChars : List Char → Option (List Nat)
  | [] => some []
  | c0 :: c1 :: c2 :: c3 :: rest =>
    match b64DecChar c0, b64DecChar c1 with
    | some s0, some s1 =>
      if c2 = b64Pad ∧ c3 = b64Pad ∧ rest = [] then
        some [s0 * 4 + s1 / 16]
      else
        match b64DecChar c2 with
        | some s2 =>
          if c3 = b64Pad ∧ rest = [] then
            some [s0 * 4 + s1 / 16, s1 % 16 * 16 + s2 / 4]
          else
            match b64DecChar c3 with
            | some s3 =>
              match b64decodeChars rest with
              | some bs =>
                some ((s0 * 4 + s1 / 16) :: (s1 % 16 * 16 + s2 / 4) ::
                  (s2 % 4 * 64 + s3) :: bs)
              | none => none
            | none => none
        | none => none
    | _, _ => none
  | _ => none

/-- `base64.b64encode(image_bytes).decode("utf-8")`. -/
def b64encodeString (bs : List Nat) : String := String.mk (b64encode bs)

/-- `base64.b64decode` of a result payload string. -/
def b64decodeString (s : String) : Option (List Nat) := b64decodeChars s.data

/-- The inline publication path (handler.py lines 808-822): the fetched
bytes are base64-encoded into the output item. -/
def publishInline (filename : String) (bs : List Nat) : OutputItem :=
  { filename := filename, dtype := "base64", data := b64encodeString bs, s3Key := none }

/-! ### Object-store publication path (handler.py lines 775-807 and
`boto_upload_media`, lines 137-178) -/

/-- Effect oracle for publishing one artifact to S3: whether writing the
bytes to the temporary file succeeds (`temp_file.write`), whether reading
it back and `put_object` succeed, whether `generate_presigned_url`
succeeds, and the produced URL and key. -/
structure S3Env where
  writeOk : Bool
  uploadOk : Bool
  presignOk : Bool
  url : String
  key : String
deriving Repr, DecidableEq

/-- Outcome of the S3 publication of one artifact: the output item (if
published), the recorded error (if the `except` at line 799 fired), and
whether the temporary file created for this artifact is still on disk when
the step finishes. -/
structure S3Outcome where
  item : Option OutputItem
  errMsg : Option String
  tempFileLeaked : Bool
deriving Repr, DecidableEq

/-- The `try` block of handler.py lines 776-807.
`tempfile.NamedTemporaryFile(delete=False)` creates the file on disk at
once; `temp_file_path` is assigned only after `temp_file.write` returns.
When the write itself raises, the cleanup guard
`"temp_file_path" in locals() and os.path.exists(temp_file_path)` never
sees this artifact's path (on the first artifact the name is unbound, on
later artifacts it holds a stale, already-removed path), so the file stays
on disk.  When the failure happens after the assignment (upload or
presign), the cleanup removes the file. -/
def publishS3 (env : S3Env) (filename : String) : S3Outcome :=
  if env.writeOk = false then
    { item := none,
      errMsg := some ("Error uploading " ++ filename ++ " to S3: temp file write failed"),
      tempFileLeaked := true }
  else if env.uploadOk = false then
    { item := none,
      errMsg := some ("Error uploading " ++ filename ++ " to S3: put_object failed"),
      tempFileLeaked := false }
  else if env.presignOk = false then
    { item := none,
      errMsg := some ("Error uploading " ++ filename ++ " to S3: presign failed"),
      tempFileLeaked := false }
  else
    { item := some { filename := filename, dtype := "s3_url", data := env.url,
                     s3Key := some env.key },
      errMsg := none, tempFileLeaked := false }

/-! ### Artifact collection (handler.py lines 748-833) -/

/-- One element of a node output's `images` list: an artifact descriptor.
`itype` models the `"type"` key (`"output"`, `"temp"`, ...). -/
structure ImageInfo where
  filename : Option String
  subfolder : String
  itype : Option String
deriving Repr, DecidableEq

/-- One node output: the `images` list when the `"images"` key is present,
plus the other keys (only logged, never recorded). -/
structure NodeOutput where
  images : Option (List ImageInfo)
  otherKeys : List String
deriving Repr, DecidableEq

/-- Arguments of one `get_image_data` call (a fetch from `/view`). -/
structure FetchCall where
  filename : String
  subfolder : String
  itype : Option String
deriving Repr, DecidableEq

/-- Effect oracles for the collection loop: whether the S3 destination is
configured (`BUCKET_ENDPOINT_URL`), the `get_image_data` result per call
(`none` is a swallowed transport error), and the S3 oracle per filename. -/
structure CollectEnv where
  bucketConfigured : Bool
  fetch : String → String → Option String → Option (List Nat)
  s3 : String → S3Env

/-- State threaded through the collection loop: the `output_data` and
`errors` lists, plus a log of the `/view` fetches performed and a count of
leaked temporary files. -/
structure CollectState where
  outputData : List OutputItem
  errors : List String
  fetchLog : List FetchCall
  leakedTempFiles : Nat
deriving Repr, DecidableEq

/-- Python truthiness of `filename` (`if not filename`). -/
def filenameFalsy : Option String → Bool
  | none => true
  | some s => s = ""

def missingFilenameMsg (nodeId : String) : String :=
  "Skipping image in node " ++ nodeId ++ " due to missing filename"

def fetchFailMsg (filename : String) : String :=
  "Failed to fetch image data for " ++ filename ++ " from /view endpoint."

/-- The body of the `for image_info in node_output["images"]` loop
(handler.py lines 753-825): skip `temp` artifacts before anything else,
then the missing-filename guard, then the fetch, then one of the two
publication paths. -/
def processImage (env : CollectEnv) (nodeId : String) (st : CollectState)
    (info : ImageInfo) : CollectState :=
  if info.itype = some "temp" then st
  else if filenameFalsy info.filename then
    { st with errors := st.errors ++ [missingFilenameMsg nodeId] }
  else
    let fname := info.filename.getD ""
    let st := { st with
      fetchLog := st.fetchLog ++ [(⟨fname, info.subfolder, info.itype⟩ : FetchCall)] }
    match env.fetch fname info.subfolder info.itype with
    | some bs =>
      if bs = [] then { st with errors := st.errors ++ [fetchFailMsg fname] }
      else if env.bucketConfigured then
        let oc := publishS3 (env.s3 fname) fname
        { st with
          outputData := st.outputData ++ oc.item.toList,
          errors := st.errors ++ oc.errMsg.toList,
          leakedTempFiles := st.leakedTempFiles + (if oc.tempFileLeaked then 1 else 0) }
      else { st with outputData := st.outputData ++ [publishInline fname bs] }
    | none => { st with errors := st.errors ++ [fetchFailMsg fname] }

/-- Per-node processing (handler.py lines 748-833): the `images` list when
present; other output keys are only printed as warnings. -/
def processNode (env : CollectEnv) (st : CollectState) (node : String × NodeOutput) :
    CollectState :=
  match node.2.images with
  | some infos => infos.foldl (processImage env node.1) st
  | none => st

/-- The whole collection phase over the history outputs mapping. -/
def processOutputs (env : CollectEnv) (outputs : List (String × NodeOutput))
    (st0 : CollectState) : CollectState :=
  outputs.foldl (processNode env) st0

/-- One node output with the `kind=temp` artifact descriptors removed. -/
def dropTempNode (node : String × NodeOutput) : String × NodeOutput :=
  (node.1, { node.2 with
    images := node.2.images.map (fun infos =>
      infos.filter (fun i => !(i.itype == some "temp"))) })

/-- A history outputs mapping with the `kind=temp` descriptors removed. -/
def dropTempImages (outputs : List (String × NodeOutput)) : List (String × NodeOutput) :=
  outputs.map dropTempNode

/-! ### The handler body after the websocket is opened
(handler.py lines 636-877) -/

/-- Effect oracle for one handler run past input validation, readiness and
input upload: the initial `ws.connect` outcome, the `queue_workflow` result
(`.error` is a raised `ValueError`, `.ok` the returned `prompt_id`), the
event stream, the `get_history` HTTP outcome, the history mapping from
prompt id to its `outputs`, and the collection oracles. -/
structure HandlerEnv where
  connectOk : Bool
  queueResp : Except String String
  frames : List Frame
  historyOk : Bool
  history : List (String × List (String × NodeOutput))
  collect : CollectEnv

/-- What a handler run returns together with the final state of the
websocket connection and the leaked-temp-file count. -/
structure CoreResult where
  ret : HandlerRet
  wsConnected : Bool
  leakedTempFiles : Nat

/-- The `finally` block (handler.py lines 851-854):
`if ws and ws.connected: ws.close()`. -/
def closeWs (ws : Bool) : Bool :=
  if ws then false else ws

/-- Connection state of the `ws` variable when the monitoring phase ends:
each abrupt close leaves the old socket disconnected, and a successful
reconnect installs a fresh connected socket. -/
def wsAfterMonitor (wsUrl : String) (maxA : Nat) : List Frame → Bool
  | [] => true
  | .closedFrame env :: rest =>
    match (attempt_websocket_reconnect env wsUrl maxA).1 with
    | .connected _ => wsAfterMonitor wsUrl maxA rest
    | _ => false
  | _ :: rest => wsAfterMonitor wsUrl maxA rest

def historyNotFoundMsg (pid : String) : String :=
  "Prompt ID " ++ pid ++ " not found in history after execution."

def noOutputsMsg (pid : String) : String :=
  "No outputs found in history for prompt " ++ pid ++ "."

/-- The warning appended when the history has no outputs (handler.py lines
741-745): only when no errors were recorded yet. -/
def noteEmptyOutputs (pid : String) (outputs : List (String × NodeOutput))
    (errors : List String) : List String :=
  match outputs, errors with
  | [], [] => [noOutputsMsg pid]
  | _, es => es

/-- The `try` body of the handler from `ws.connect` onwards, together with
the connection state at the point where control leaves the `try`
(normally or by exception).  Every `except` clause at lines 835-850 turns
the exception into an error return. -/
def handlerBody (env : HandlerEnv) (wsUrl : String) (maxA : Nat) :
    HandlerRet × Bool × Nat :=
  if env.connectOk = false then
    (.errorRet "WebSocket communication error: connect failed" none, false, 0)
  else
    match env.queueResp with
    | .error msg => (.errorRet msg none, true, 0)
    | .ok pid =>
      match monitorAndCheck pid wsUrl maxA env.frames with
      | .raisedExc excClass excMsg _ =>
        (.errorRet (excClass ++ ": " ++ excMsg) none,
         (match monitorLoop pid wsUrl maxA env.frames [] with
          | .excRaised _ _ _ => wsAfterMonitor wsUrl maxA env.frames
          | _ => true),
         0)
      | .proceed _ errors =>
        if env.historyOk = false then
          (.errorRet "HTTP communication error with ComfyUI" none, true, 0)
        else
          match (env.history.find? (fun p => p.1 == pid)).map (fun p => p.2) with
          | none =>
            match errors with
            | [] => (.errorRet (historyNotFoundMsg pid) none, true, 0)
            | e :: es =>
              (.errorRet "Job processing failed, prompt ID not found in history."
                (some ((e :: es) ++ [historyNotFoundMsg pid])), true, 0)
          | some outputs =>
            let errors1 := noteEmptyOutputs pid outputs errors
            let st := processOutputs env.collect outputs ⟨[], errors1, [], 0⟩
            (assembleResult st.outputData st.errors, true, st.leakedTempFiles)

/-- The handler from `ws.connect` to the returned value: the `try` body,
then the `finally` block closing the connection on every exit path. -/
def handlerCore (env : HandlerEnv) (wsUrl : String) (maxA : Nat) : CoreResult :=
  let body := handlerBody env wsUrl maxA
  { ret := body.1, wsConnected := closeWs body.2.1, leakedTempFiles := body.2.2 }

/-! ## Theorems -/

/-- When every element of the media list is a dict, the membership tests
inside the `all(...)` generator cannot raise. -/
theorem checkMediaElems_ok_of_dicts (xs : List JValue)
    (h : xs.all (fun x => match x with | .dict _ => true | _ => false) = true) :
    ∃ b, checkMediaElems xs = .ok b := by
  induction xs with
  | nil => exact ⟨true, rfl⟩
  | cons x rest ih =>
    rw [List.all_cons, Bool.and_eq_true] at h
    obtain ⟨hx, hrest⟩ := h
    obtain ⟨b, hb⟩ := ih hrest
    cases x with
    | dict fields =>
      simp only [checkMediaElems, pyContains]
      cases fields.any (fun p => p.1 == "name") with
      | false => exact ⟨false, rfl⟩
      | true =>
        cases fields.any (fun p => p.1 == "media") with
        | false => exact ⟨false, rfl⟩
        | true => exact ⟨b, hb⟩
    | null => exact Bool.noConfusion hx
    | bool b2 => exact Bool.noConfusion hx
    | num n2 => exact Bool.noConfusion hx
    | str s2 => exact Bool.noConfusion hx
    | arr a2 => exact Bool.noConfusion hx

theorem jIsNull_iff (v : JValue) : jIsNull v = true ↔ v = .null := by
  cases v <;> simp [jIsNull]

/-- Behaviour of the post-parse validation on a dict payload whose media
elements are all dicts: it never raises and follows the ordered rules. -/
theorem validateParsed_dict_spec (fields : List (String × JValue))
    (hsafe : mediaElemsSafe fields = true) :
    (∃ job err, validateParsed (.dict fields) = .returned job err) ∧
    (dictGet fields "workflow" = .null →
      validateParsed (.dict fields) = .returned none (some missingWorkflowMsg)) ∧
    (dictGet fields "workflow" ≠ .null → dictGet fields "media" = .null →
      validateParsed (.dict fields) =
        .returned (some ⟨dictGet fields "workflow", .null⟩) none) ∧
    (∀ xs, dictGet fields "workflow" ≠ .null → dictGet fields "media" = .arr xs →
      (checkMediaElems xs = .ok true →
        validateParsed (.dict fields) =
          .returned (some ⟨dictGet fields "workflow", .arr xs⟩) none) ∧
      (checkMediaElems xs = .ok false →
        validateParsed (.dict fields) = .returned none (some malformedMediaMsg))) ∧
    (dictGet fields "workflow" ≠ .null → dictGet fields "media" ≠ .null →
      (∀ xs, dictGet fields "media" ≠ .arr xs) →
      validateParsed (.dict fields) = .returned none (some malformedMediaMsg)) := by
  by_cases hw : dictGet fields "workflow" = .null
  · have hwb : jIsNull (dictGet fields "workflow") = true := (jIsNull_iff _).mpr hw
    refine ⟨⟨none, some missingWorkflowMsg, ?_⟩, fun _ => ?_, fun hn => absurd hw hn,
      fun xs hn => absurd hw hn, fun hn => absurd hw hn⟩ <;>
      simp only [validateParsed, hwb, if_true]
  · have hwb : jIsNull (dictGet fields "workflow") = false := by
      cases hj : jIsNull (dictGet fields "workflow") with
      | false => rfl
      | true => exact absurd ((jIsNull_iff _).mp hj) hw
    by_cases hm : dictGet fields "media" = .null
    · have hmb : jIsNull (dictGet fields "media") = true := (jIsNull_iff _).mpr hm
      refine ⟨⟨some ⟨dictGet fields "workflow", .null⟩, none, ?_⟩, fun h => absurd h hw,
        fun _ _ => ?_, fun xs _ harr => absurd (hm ▸ harr) (fun he => nomatch he),
        fun _ hmn => absurd hm hmn⟩ <;>
        simp only [validateParsed, hwb, Bool.false_eq_true, if_false, hmb, if_true]
    · have hmb : jIsNull (dictGet fields "media") = false := by
        cases hj : jIsNull (dictGet fields "media") with
        | false => rfl
        | true => exact absurd ((jIsNull_iff _).mp hj) hm
      refine ⟨?_, fun h => absurd h hw, fun _ h => absurd h hm, fun xs _ harr => ?_,
        fun _ _ hnarr => ?_⟩
      · -- existence: case on the shape of the media value
        unfold mediaElemsSafe at hsafe
        cases hmc : dictGet fields "media" with
        | arr xs =>
          rw [hmc] at hsafe
          obtain ⟨b, hb⟩ := checkMediaElems_ok_of_dicts xs hsafe
          cases b with
          | true =>
            exact ⟨some ⟨dictGet fields "workflow", .arr xs⟩, none, by
              simp [validateParsed, jIsNull, hwb, hmb, hmc, hb]⟩
          | false =>
            exact ⟨none, some malformedMediaMsg, by
              simp [validateParsed, jIsNull, hwb, hmb, hmc, hb]⟩
        | null => exact absurd hmc hm
        | bool b => exact ⟨none, some malformedMediaMsg, by
            simp [validateParsed, jIsNull, hwb, hmb, hmc]⟩
        | num n => exact ⟨none, some malformedMediaMsg, by
            simp [validateParsed, jIsNull, hwb, hmb, hmc]⟩
        | str s => exact ⟨none, some malformedMediaMsg, by
            simp [validateParsed, jIsNull, hwb, hmb, hmc]⟩
        | dict d => exact ⟨none, some malformedMediaMsg, by
            simp [validateParsed, jIsNull, hwb, hmb, hmc]⟩
      · constructor <;> intro hck <;>
          simp [validateParsed, jIsNull, hwb, hmb, harr, hck]
      · cases hmc : dictGet fields "media" with
        | null => exact absurd hmc hm
        | arr xs => exact absurd hmc (hnarr xs)
        | bool b => simp [validateParsed, jIsNull, hwb, hmb, hmc]
        | num n => simp [validateParsed, jIsNull, hwb, hmb, hmc]
        | str s => simp [validateParsed, jIsNull, hwb, hmb, hmc]
        | dict d => simp [validateParsed, jIsNull, hwb, hmb, hmc]


/-- C1 counterexample: `validate_input` does not return a pair on every
payload — a list payload (here the empty JSON list) has no `.get` method
and the call raises `AttributeError` instead of returning
`(validated, error)`. -/
theorem validate_input_counterexample :
    validate_input (fun _ => none) (.arr []) = .raised "AttributeError" := rfl

/-- C1 (amended): for payloads that are null, a dict, or a string (where a
string that parses must parse to a dict, and any present media list of the
dict holds only dicts), `validate_input` returns a pair `(validated, error)`
without raising, applying the rules in order: null input is rejected; a
string input is parsed, failing with the InvalidFormat message on parse
error; a null-or-missing `workflow` field fails with the MissingField
message independent of other contents; a present `media` field must be a
list whose every element carries both `name` and `media` keys, else the
MalformedMedia message; an absent `media` field is valid. -/
theorem validate_input_safe_spec (parse : String → Option JValue) (v : JValue)
    (h : safeInput parse v = true) :
    (∃ job err, validate_input parse v = .returned job err) ∧
    (v = .null → validate_input parse v = .returned none (some "Please provide input")) ∧
    (∀ s, v = .str s → parse s = none →
      validate_input parse v = .returned none (some "Invalid JSON format in input")) ∧
    (∀ fs, effectiveFields parse v = some fs → dictGet fs "workflow" = .null →
      validate_input parse v = .returned none (some missingWorkflowMsg)) ∧
    (∀ fs, effectiveFields parse v = some fs → dictGet fs "workflow" ≠ .null →
      dictGet fs "media" = .null →
      validate_input parse v = .returned (some ⟨dictGet fs "workflow", .null⟩) none) ∧
    (∀ fs xs, effectiveFields parse v = some fs → dictGet fs "workflow" ≠ .null →
      dictGet fs "media" = .arr xs →
      (checkMediaElems xs = .ok true →
        validate_input parse v = .returned (some ⟨dictGet fs "workflow", .arr xs⟩) none) ∧
      (checkMediaElems xs = .ok false →
        validate_input parse v = .returned none (some malformedMediaMsg))) ∧
    (∀ fs, effectiveFields parse v = some fs → dictGet fs "workflow" ≠ .null →
      dictGet fs "media" ≠ .null → (∀ xs, dictGet fs "media" ≠ .arr xs) →
      validate_input parse v = .returned none (some malformedMediaMsg)) := by
  cases v with
  | null =>
    refine ⟨⟨none, some "Please provide input", rfl⟩, fun _ => rfl, ?_, ?_, ?_, ?_, ?_⟩
    · intro s hs hps; exact JValue.noConfusion hs
    · intro fs hfs; exact Option.noConfusion hfs
    · intro fs hfs; exact Option.noConfusion hfs
    · intro fs xs hfs; exact Option.noConfusion hfs
    · intro fs hfs; exact Option.noConfusion hfs
  | str s =>
    cases hp : parse s with
    | none =>
      refine ⟨⟨none, some "Invalid JSON format in input", ?_⟩, ?_, ?_, ?_, ?_, ?_, ?_⟩
      · simp only [validate_input, hp]
      · intro hv; exact JValue.noConfusion hv
      · intro t ht hpt; simp only [validate_input, hp]
      · intro fs hfs; simp only [effectiveFields, hp] at hfs; exact Option.noConfusion hfs
      · intro fs hfs; simp only [effectiveFields, hp] at hfs; exact Option.noConfusion hfs
      · intro fs xs hfs; simp only [effectiveFields, hp] at hfs; exact Option.noConfusion hfs
      · intro fs hfs; simp only [effectiveFields, hp] at hfs; exact Option.noConfusion hfs
    | some w =>
      have hv : validate_input parse (.str s) = validateParsed w := by
        simp only [validate_input, hp]
      cases w with
      | dict fields =>
        have hsafe : mediaElemsSafe fields = true := by
          simpa only [safeInput, hp] using h
        have hfsv : effectiveFields parse (.str s) = some fields := by
          simp only [effectiveFields, hp]
        obtain ⟨hex, hmiss, hnullm, harr, hother⟩ := validateParsed_dict_spec fields hsafe
        obtain ⟨job, err, hje⟩ := hex
        refine ⟨⟨job, err, by rw [hv]; exact hje⟩, ?_, ?_, ?_, ?_, ?_, ?_⟩
        · intro hveq; exact JValue.noConfusion hveq
        · intro t ht hpt
          injection ht with hst
          subst hst
          rw [hpt] at hp
          exact Option.noConfusion hp
        · intro fs hfs hwf
          rw [hfsv] at hfs; injection hfs with hfs2; subst hfs2
          rw [hv]; exact hmiss hwf
        · intro fs hfs hwf hm
          rw [hfsv] at hfs; injection hfs with hfs2; subst hfs2
          rw [hv]; exact hnullm hwf hm
        · intro fs xs hfs hwf hm
          rw [hfsv] at hfs; injection hfs with hfs2; subst hfs2
          exact ⟨fun hck => by rw [hv]; exact (harr xs hwf hm).1 hck,
            fun hck => by rw [hv]; exact (harr xs hwf hm).2 hck⟩
        · intro fs hfs hwf hm hnarr
          rw [hfsv] at hfs; injection hfs with hfs2; subst hfs2
          rw [hv]; exact hother hwf hm hnarr
      | null => rw [safeInput, hp] at h; exact Bool.noConfusion h
      | bool b => rw [safeInput, hp] at h; exact Bool.noConfusion h
      | num n => rw [safeInput, hp] at h; exact Bool.noConfusion h
      | str t => rw [safeInput, hp] at h; exact Bool.noConfusion h
      | arr xs => rw [safeInput, hp] at h; exact Bool.noConfusion h
  | dict fields =>
    have hsafe : mediaElemsSafe fields = true := by simpa only [safeInput] using h
    have hv : validate_input parse (.dict fields) = validateParsed (.dict fields) := rfl
    obtain ⟨hex, hmiss, hnullm, harr, hother⟩ := validateParsed_dict_spec fields hsafe
    obtain ⟨job, err, hje⟩ := hex
    refine ⟨⟨job, err, by rw [hv]; exact hje⟩, ?_, ?_, ?_, ?_, ?_, ?_⟩
    · intro hveq; exact JValue.noConfusion hveq
    · intro t ht hpt; exact JValue.noConfusion ht
    · intro fs hfs hwf
      injection hfs with hfs2; subst hfs2
      rw [hv]; exact hmiss hwf
    · intro fs hfs hwf hm
      injection hfs with hfs2; subst hfs2
      rw [hv]; exact hnullm hwf hm
    · intro fs xs hfs hwf hm
      injection hfs with hfs2; subst hfs2
      exact ⟨fun hck => by rw [hv]; exact (harr xs hwf hm).1 hck,
        fun hck => by rw [hv]; exact (harr xs hwf hm).2 hck⟩
    · intro fs hfs hwf hm hnarr
      injection hfs with hfs2; subst hfs2
      rw [hv]; exact hother hwf hm hnarr
  | bool b => exact absurd h (by simp [safeInput])
  | num n => exact absurd h (by simp [safeInput])
  | arr xs => exact absurd h (by simp [safeInput])

/-- C1 witness: a concrete dict payload with a workflow and no media
validates successfully through `validate_input_safe_spec`. -/
theorem validate_input_safe_spec_witness :
    safeInput (fun _ => none) (.dict [("workflow", .num 1)]) = true ∧
    validate_input (fun _ => none) (.dict [("workflow", .num 1)]) =
      .returned (some ⟨.num 1, .null⟩) none :=
  ⟨rfl,
    (validate_input_safe_spec (fun _ => none) (.dict [("workflow", .num 1)]) rfl).2.2.2.2.1
      [("workflow", .num 1)] rfl (fun hh => JValue.noConfusion hh) rfl⟩

/-- C2: result assembly — failure exactly when no artifact was published
and at least one error was recorded; `success_no_media` when neither;
success carrying the media (with any recorded errors alongside) when at
least one artifact was published. -/
theorem assembleResult_outcome (od : List OutputItem) (es : List String) :
    (od = [] → es ≠ [] → assembleResult od es = .errorRet "Job processing failed" (some es)) ∧
    (od = [] → es = [] → assembleResult od es = .okRet [] [] (some "success_no_media")) ∧
    (od ≠ [] → assembleResult od es = .okRet od es none) := by
  cases od with
  | nil =>
    cases es with
    | nil =>
      refine ⟨?_, fun _ _ => rfl, ?_⟩
      · intro _ hne; exact absurd rfl hne
      · intro hne; exact absurd rfl hne
    | cons e es2 =>
      refine ⟨fun _ _ => rfl, ?_, ?_⟩
      · intro _ hn; exact List.noConfusion hn
      · intro hne; exact absurd rfl hne
  | cons o od2 =>
    refine ⟨?_, ?_, fun _ => rfl⟩
    · intro hn; exact List.noConfusion hn
    · intro hn; exact List.noConfusion hn

/-- C2 witness: zero artifacts and one recorded error assemble to the
failure object. -/
theorem assembleResult_outcome_witness :
    assembleResult [] ["Workflow execution error: node 3 failed"] =
      .errorRet "Job processing failed" (some ["Workflow execution error: node 3 failed"]) :=
  (assembleResult_outcome [] ["Workflow execution error: node 3 failed"]).1 rfl
    (fun hh => List.noConfusion hh)

/-- C3: the monitoring phase never proceeds as successful without having
observed a completion signal or a matching execution_error — and when the
loop ends normally with neither, the handler raises the
IncompleteMonitoring `ValueError`. -/
theorem monitor_no_silent_success (pid wsUrl : String) (maxA : Nat) (frames : List Frame) :
    (∀ done errors, monitorAndCheck pid wsUrl maxA frames = .proceed done errors →
      done = true ∨ errors ≠ []) ∧
    (monitorLoop pid wsUrl maxA frames [] = .normalExit false [] →
      monitorAndCheck pid wsUrl maxA frames =
        .raisedExc "ValueError" incompleteMonitoringMsg []) := by
  constructor
  · intro done errors hp
    cases hml : monitorLoop pid wsUrl maxA frames [] with
    | normalExit d e =>
      simp only [monitorAndCheck, hml] at hp
      by_cases hc : d = false ∧ e = []
      · rw [if_pos hc] at hp; exact MonitorOutcome.noConfusion hp
      · rw [if_neg hc] at hp
        cases hp
        cases done with
        | true => exact Or.inl rfl
        | false => exact Or.inr (fun he => hc ⟨rfl, he⟩)
    | excRaised c m e =>
      simp only [monitorAndCheck, hml] at hp
      exact MonitorOutcome.noConfusion hp
  · intro hml
    simp [monitorAndCheck, hml]

/-- C3 witness: an empty event stream ends the loop with no confirmation,
and the handler raises the IncompleteMonitoring error. -/
theorem monitor_no_silent_success_witness :
    monitorAndCheck "prompt-1" "ws://127.0.0.1:8188/ws?clientId=c" 5 [] =
      .raisedExc "ValueError" incompleteMonitoringMsg [] :=
  (monitor_no_silent_success "prompt-1" "ws://127.0.0.1:8188/ws?clientId=c" 5 []).2 rfl

theorem closeWs_eq_false (b : Bool) : closeWs b = false := by
  cases b <;> rfl

/-- C5: on every exit path of the handler after the websocket phase —
normal completion, execution failure, raised exception, or reconnect
exhaustion — the connection is closed before control returns. -/
theorem handler_closes_websocket (env : HandlerEnv) (wsUrl : String) (maxA : Nat) :
    (handlerCore env wsUrl maxA).wsConnected = false :=
  closeWs_eq_false _

/-- C8 evaluation at the failing input: when writing the fetched bytes to
the temporary file raises, the failure is caught and recorded as a warning
and the artifact is dropped — but the temporary file created by
`NamedTemporaryFile(delete=False)` is left on disk, because the cleanup
guard tests `temp_file_path`, which is only assigned after a successful
write. -/
theorem publishS3_write_failure_leaks_temp_file :
    publishS3 { writeOk := false, uploadOk := true, presignOk := true,
                url := "https://bucket/presigned", key := "job-1/abcd1234.png" }
        "ComfyUI_00001_.png" =
      { item := none,
        errMsg := some "Error uploading ComfyUI_00001_.png to S3: temp file write failed",
        tempFileLeaked := true } := rfl


theorem checkServerLoop_eq_false (att : Nat → Option Nat) :
    ∀ (fuel i : Nat), (∀ j, j < fuel → att (i + j) ≠ some 200) →
      checkServerLoop att i fuel = false := by
  intro fuel
  induction fuel with
  | zero => intro i h; rfl
  | succ n ih =>
    intro i h
    have h0 : ¬(att i = some 200) := by
      have := h 0 (Nat.succ_pos n)
      simpa using this
    simp only [checkServerLoop, if_neg h0]
    exact ih (i + 1) (fun j hj => by
      have := h (j + 1) (Nat.succ_lt_succ hj)
      rw [show i + (j + 1) = i + 1 + j by omega] at this
      exact this)

theorem checkServerLoop_eq_true (att : Nat → Option Nat) :
    ∀ (fuel i j : Nat), j < fuel → att (i + j) = some 200 →
      checkServerLoop att i fuel = true := by
  intro fuel
  induction fuel with
  | zero => intro i j hj h200; exact absurd hj (Nat.not_lt_zero j)
  | succ n ih =>
    intro i j hj h200
    by_cases h0 : att i = some 200
    · simp only [checkServerLoop, if_pos h0]
    · simp only [checkServerLoop, if_neg h0]
      cases j with
      | zero => rw [Nat.add_zero] at h200; exact absurd h200 h0
      | succ j2 =>
        exact ih (i + 1) j2 (Nat.lt_of_succ_lt_succ hj) (by
          rw [show i + 1 + j2 = i + (j2 + 1) by omega]
          exact h200)

/-- C7: the readiness probe treats 200 as ready and any transport error or
non-200 status as a retryable miss; it returns false (without raising)
when every attempt misses, at which point the handler fails the job with
the EngineUnreachable error; any attempt returning 200 — including the
final one — makes the probe return true. -/
theorem check_server_spec (att : Nat → Option Nat) (retries : Nat) :
    ((∀ i, i < retries → att i ≠ some 200) → check_server att retries = false) ∧
    ((∃ i, i < retries ∧ att i = some 200) → check_server att retries = true) ∧
    ((∀ i, i < 500 → att i ≠ some 200) →
      handlerReadiness att = some (.errorRet engineUnreachableMsg none)) := by
  refine ⟨?_, ?_, ?_⟩
  · intro h
    exact checkServerLoop_eq_false att retries 0 (fun j hj => by simpa using h j hj)
  · rintro ⟨i, hi, h200⟩
    exact checkServerLoop_eq_true att retries 0 i hi (by simpa using h200)
  · intro h
    have hcs : check_server att 500 = false :=
      checkServerLoop_eq_false att 500 0 (fun j hj => by simpa using h j hj)
    simp [handlerReadiness, hcs]

/-- C7 witness: a probe that answers 200 returns true within the budget; a
probe that always fails makes the handler return the EngineUnreachable
error object. -/
theorem check_server_spec_witness :
    check_server (fun _ => some 200) 3 = true ∧
    handlerReadiness (fun _ => none) = some (.errorRet engineUnreachableMsg none) :=
  ⟨(check_server_spec (fun _ => some 200) 3).2.1 ⟨0, Nat.succ_pos 2, rfl⟩,
   (check_server_spec (fun _ => none) 0).2.2 (fun _ _ h200 => Option.noConfusion h200)⟩

theorem reconnectLoop_log (env : ReconnEnv) (wsUrl : String) :
    ∀ (fuel i : Nat), (reconnectLoop env wsUrl i fuel).2.length ≤ fuel ∧
      ∀ u ∈ (reconnectLoop env wsUrl i fuel).2, u = wsUrl := by
  intro fuel
  induction fuel with
  | zero =>
    intro i
    exact ⟨Nat.le_refl 0, fun u hu => absurd hu (List.not_mem_nil u)⟩
  | succ n ih =>
    intro i
    by_cases hr : env.reachable i = false
    · simp only [reconnectLoop, if_pos hr]
      exact ⟨Nat.zero_le _, fun u hu => absurd hu (List.not_mem_nil u)⟩
    · by_cases hc : env.connectOk wsUrl i = true
      · simp only [reconnectLoop, if_neg hr, if_pos hc]
        constructor
        · simp
        · intro u hu
          rcases List.mem_singleton.mp hu with h
          exact h
      · simp only [reconnectLoop, if_neg hr, if_neg hc]
        obtain ⟨hlen, hmem⟩ := ih (i + 1)
        constructor
        · simpa using Nat.succ_le_succ hlen
        · intro u hu
          rcases List.mem_cons.mp hu with h | h
          · exact h
          · exact hmem u h

theorem reconnectLoop_connected (env : ReconnEnv) (wsUrl : String) :
    ∀ (fuel i j : Nat), (reconnectLoop env wsUrl i fuel).1 = .connected j →
      i ≤ j ∧ j < i + fuel ∧ env.reachable j = true ∧ env.connectOk wsUrl j = true := by
  intro fuel
  induction fuel with
  | zero => intro i j hc; exact ReconnResult.noConfusion hc
  | succ n ih =>
    intro i j hc
    by_cases hr : env.reachable i = false
    · simp only [reconnectLoop, if_pos hr] at hc
      exact ReconnResult.noConfusion hc
    · by_cases hcon : env.connectOk wsUrl i = true
      · simp only [reconnectLoop, if_neg hr, if_pos hcon] at hc
        cases hc
        refine ⟨Nat.le_refl i, by omega, ?_, hcon⟩
        cases hri : env.reachable i with
        | true => rfl
        | false => exact absurd hri hr
      · simp only [reconnectLoop, if_neg hr, if_neg hcon] at hc
        obtain ⟨h1, h2, h3, h4⟩ := ih (i + 1) j hc
        exact ⟨by omega, by omega, h3, h4⟩

theorem reconnectLoop_unreachable (env : ReconnEnv) (wsUrl : String) :
    ∀ (fuel i j : Nat), j < fuel →
      (∀ k, k < j → env.reachable (i + k) = true ∧ env.connectOk wsUrl (i + k) = false) →
      env.reachable (i + j) = false →
      (reconnectLoop env wsUrl i fuel).1 = .unreachableAbort ∧
      (reconnectLoop env wsUrl i fuel).2.length = j := by
  intro fuel
  induction fuel with
  | zero => intro i j hj hk hbad; exact absurd hj (Nat.not_lt_zero j)
  | succ n ih =>
    intro i j hj hk hbad
    cases j with
    | zero =>
      rw [Nat.add_zero] at hbad
      simp [reconnectLoop, hbad]
    | succ j2 =>
      obtain ⟨hre, hco⟩ := hk 0 (Nat.succ_pos j2)
      rw [Nat.add_zero] at hre hco
      have hr : ¬(env.reachable i = false) := by rw [hre]; exact fun hh => Bool.noConfusion hh
      have hcon : ¬(env.connectOk wsUrl i = true) := by
        rw [hco]; exact fun hh => Bool.noConfusion hh
      simp only [reconnectLoop, if_neg hr, if_neg hcon]
      obtain ⟨h1, h2⟩ := ih (i + 1) j2 (Nat.lt_of_succ_lt_succ hj)
        (fun k hk2 => by
          have := hk (k + 1) (Nat.succ_lt_succ hk2)
          rw [show i + (k + 1) = i + 1 + k by omega] at this
          exact this)
        (by rw [show i + 1 + j2 = i + (j2 + 1) by omega]; exact hbad)
      exact ⟨h1, by simp [h2]⟩

theorem reconnectLoop_exhausted (env : ReconnEnv) (wsUrl : String) :
    ∀ (fuel i : Nat),
      (∀ k, k < fuel → env.reachable (i + k) = true ∧ env.connectOk wsUrl (i + k) = false) →
      (reconnectLoop env wsUrl i fuel).1 = .exhausted ∧
      (reconnectLoop env wsUrl i fuel).2.length = fuel := by
  intro fuel
  induction fuel with
  | zero => intro i hk; exact ⟨rfl, rfl⟩
  | succ n ih =>
    intro i hk
    obtain ⟨hre, hco⟩ := hk 0 (Nat.succ_pos n)
    rw [Nat.add_zero] at hre hco
    have hr : ¬(env.reachable i = false) := by rw [hre]; exact fun hh => Bool.noConfusion hh
    have hcon : ¬(env.connectOk wsUrl i = true) := by
      rw [hco]; exact fun hh => Bool.noConfusion hh
    simp only [reconnectLoop, if_neg hr, if_neg hcon]
    obtain ⟨h1, h2⟩ := ih (i + 1) (fun k hk2 => by
      have := hk (k + 1) (Nat.succ_lt_succ hk2)
      rw [show i + (k + 1) = i + 1 + k by omega] at this
      exact this)
    exact ⟨h1, by simp [h2]⟩

/-- C4: every reconnect handshake uses the identical websocket URL (the
one carrying the original client id) and there are at most `maxAttempts`
of them; a connected result implies the HTTP probe of that attempt was
reachable; an unreachable probe aborts immediately (the log stops at that
attempt) with the ConnectionLost-class raise; exhausting all attempts
without a successful handshake raises ConnectionLost; and a successful
reconnect makes the monitoring loop resume on the remaining stream with
the same url. -/
theorem attempt_websocket_reconnect_spec (env : ReconnEnv) (wsUrl : String)
    (maxAttempts : Nat) :
    ((attempt_websocket_reconnect env wsUrl maxAttempts).2.length ≤ maxAttempts ∧
      ∀ u ∈ (attempt_websocket_reconnect env wsUrl maxAttempts).2, u = wsUrl) ∧
    (∀ j, (attempt_websocket_reconnect env wsUrl maxAttempts).1 = .connected j →
      j < maxAttempts ∧ env.reachable j = true ∧ env.connectOk wsUrl j = true) ∧
    (∀ j, j < maxAttempts →
      (∀ k, k < j → env.reachable k = true ∧ env.connectOk wsUrl k = false) →
      env.reachable j = false →
      (attempt_websocket_reconnect env wsUrl maxAttempts).1 = .unreachableAbort ∧
      (attempt_websocket_reconnect env wsUrl maxAttempts).2.length = j) ∧
    ((∀ k, k < maxAttempts → env.reachable k = true ∧ env.connectOk wsUrl k = false) →
      (attempt_websocket_reconnect env wsUrl maxAttempts).1 = .exhausted ∧
      (attempt_websocket_reconnect env wsUrl maxAttempts).2.length = maxAttempts) ∧
    (∀ j pid frames errs,
      (attempt_websocket_reconnect env wsUrl maxAttempts).1 = .connected j →
      monitorLoop pid wsUrl maxAttempts (.closedFrame env :: frames) errs =
        monitorLoop pid wsUrl maxAttempts frames errs) := by
  refine ⟨⟨?_, ?_⟩, ?_, ?_, ?_, ?_⟩
  · exact (reconnectLoop_log env wsUrl maxAttempts 0).1
  · exact (reconnectLoop_log env wsUrl maxAttempts 0).2
  · intro j hc
    obtain ⟨h1, h2, h3, h4⟩ := reconnectLoop_connected env wsUrl maxAttempts 0 j hc
    exact ⟨by omega, h3, h4⟩
  · intro j hj hk hbad
    exact reconnectLoop_unreachable env wsUrl maxAttempts 0 j hj
      (fun k hk2 => by simpa using hk k hk2) (by simpa using hbad)
  · intro hk
    exact reconnectLoop_exhausted env wsUrl maxAttempts 0
      (fun k hk2 => by simpa using hk k hk2)
  · intro j pid frames errs hc
    simp only [monitorLoop, hc]

/-- C4 witness: with a reachable engine and a succeeding first handshake,
the closed-connection frame reconnects and monitoring resumes on the
remaining stream with the same url. -/
theorem attempt_websocket_reconnect_spec_witness :
    monitorLoop "prompt-1" "ws://127.0.0.1:8188/ws?clientId=abc" 5
        [.closedFrame ⟨fun _ => true, fun _ _ => true⟩] [] =
      monitorLoop "prompt-1" "ws://127.0.0.1:8188/ws?clientId=abc" 5 [] [] :=
  (attempt_websocket_reconnect_spec ⟨fun _ => true, fun _ _ => true⟩
      "ws://127.0.0.1:8188/ws?clientId=abc" 5).2.2.2.2 0 "prompt-1" [] [] rfl



theorem processImage_temp (env : CollectEnv) (nodeId : String) (st : CollectState)
    (info : ImageInfo) (h : info.itype = some "temp") :
    processImage env nodeId st info = st := by
  simp [processImage, h]

theorem processImage_fetchLog (env : CollectEnv) (nodeId : String) (st : CollectState)
    (info : ImageInfo) :
    (processImage env nodeId st info).fetchLog = st.fetchLog ∨
    (info.itype ≠ some "temp" ∧
      (processImage env nodeId st info).fetchLog =
        st.fetchLog ++ [⟨info.filename.getD "", info.subfolder, info.itype⟩]) := by
  by_cases ht : info.itype = some "temp"
  · left; rw [processImage_temp env nodeId st info ht]
  · by_cases hf : filenameFalsy info.filename = true
    · left; simp [processImage, ht, hf]
    · right
      refine ⟨ht, ?_⟩
      simp only [processImage, if_neg ht, if_neg hf]
      cases hfe : env.fetch (info.filename.getD "") info.subfolder info.itype with
      | none => simp [hfe]
      | some bs =>
        by_cases hbs : bs = []
        · simp [hfe, hbs]
        · by_cases hbc : env.bucketConfigured = true
          · simp [hfe, hbs, hbc]
          · simp [hfe, hbs, hbc]

theorem foldl_processImage_fetchLog (env : CollectEnv) (nodeId : String) :
    ∀ (infos : List ImageInfo) (st : CollectState) (c : FetchCall),
      c ∈ (infos.foldl (processImage env nodeId) st).fetchLog →
      c ∈ st.fetchLog ∨ c.itype ≠ some "temp" := by
  intro infos
  induction infos with
  | nil => intro st c hc; exact Or.inl hc
  | cons info rest ih =>
    intro st c hc
    rcases ih (processImage env nodeId st info) c hc with h | h
    · rcases processImage_fetchLog env nodeId st info with he | ⟨hne, he⟩
      · rw [he] at h; exact Or.inl h
      · rw [he] at h
        rcases List.mem_append.mp h with h2 | h2
        · exact Or.inl h2
        · rcases List.mem_singleton.mp h2 with rfl
          exact Or.inr hne
    · exact Or.inr h

theorem processNode_fetchLog (env : CollectEnv) (node : String × NodeOutput) :
    ∀ (st : CollectState) (c : FetchCall),
      c ∈ (processNode env st node).fetchLog →
      c ∈ st.fetchLog ∨ c.itype ≠ some "temp" := by
  intro st c hc
  unfold processNode at hc
  cases hni : node.2.images with
  | some infos => rw [hni] at hc; exact foldl_processImage_fetchLog env node.1 infos st c hc
  | none => rw [hni] at hc; exact Or.inl hc

theorem processOutputs_fetchLog (env : CollectEnv) :
    ∀ (outputs : List (String × NodeOutput)) (st : CollectState) (c : FetchCall),
      c ∈ (processOutputs env outputs st).fetchLog →
      c ∈ st.fetchLog ∨ c.itype ≠ some "temp" := by
  intro outputs
  induction outputs with
  | nil => intro st c hc; exact Or.inl hc
  | cons node rest ih =>
    intro st c hc
    rcases ih (processNode env st node) c hc with h | h
    · exact processNode_fetchLog env node st c h
    · exact Or.inr h

theorem foldl_processImage_dropTemp (env : CollectEnv) (nodeId : String) :
    ∀ (infos : List ImageInfo) (st : CollectState),
      (infos.filter (fun i => !(i.itype == some "temp"))).foldl (processImage env nodeId) st =
        infos.foldl (processImage env nodeId) st := by
  intro infos
  induction infos with
  | nil => intro st; rfl
  | cons info rest ih =>
    intro st
    by_cases ht : info.itype = some "temp"
    · have hb : (!(info.itype == some "temp")) = false := by simp [ht]
      rw [List.filter_cons, hb]
      simp only [List.foldl_cons]
      rw [processImage_temp env nodeId st info ht]
      simp only [if_neg (by simp : ¬(false = true))]
      exact ih st
    · have hb : (!(info.itype == some "temp")) = true := by simp [ht]
      rw [List.filter_cons, hb]
      simp only [if_pos rfl, List.foldl_cons]
      exact ih (processImage env nodeId st info)

theorem processNode_dropTemp (env : CollectEnv) (st : CollectState)
    (node : String × NodeOutput) :
    processNode env st (dropTempNode node) = processNode env st node := by
  cases hni : node.2.images with
  | none => simp [processNode, dropTempNode, hni]
  | some infos => simp [processNode, dropTempNode, hni, foldl_processImage_dropTemp]

/-- C6: an artifact descriptor with kind `temp` is never passed to
`get_image_data` (every logged fetch has a non-temp kind), and removing
the temp descriptors from the history outputs leaves the whole collection
result — published media, errors, fetch log — unchanged, so a temp
artifact is never included in the published output either. -/
theorem temp_artifacts_excluded (env : CollectEnv) (outputs : List (String × NodeOutput))
    (st0 : CollectState) :
    (∀ c ∈ (processOutputs env outputs st0).fetchLog,
      c ∈ st0.fetchLog ∨ c.itype ≠ some "temp") ∧
    processOutputs env (dropTempImages outputs) st0 = processOutputs env outputs st0 := by
  constructor
  · intro c hc; exact processOutputs_fetchLog env outputs st0 c hc
  · induction outputs generalizing st0 with
    | nil => rfl
    | cons node rest ih =>
      simp only [dropTempImages, List.map_cons, processOutputs, List.foldl_cons]
      rw [processNode_dropTemp env st0 node]
      simpa only [dropTempImages, processOutputs] using ih (processNode env st0 node)

/-- C6 witness: a non-temp descriptor that is fetched appears in the fetch
log with its non-temp kind. -/
theorem temp_artifacts_excluded_witness :
    (⟨"a.png", "", some "output"⟩ : FetchCall) ∈ ([] : List FetchCall) ∨
      (⟨"a.png", "", some "output"⟩ : FetchCall).itype ≠ some "temp" :=
  (temp_artifacts_excluded
      ⟨false, fun _ _ _ => some [7], fun _ => ⟨true, true, true, "u", "k"⟩⟩
      [("9", ⟨some [⟨some "a.png", "", some "output"⟩], []⟩)]
      ⟨[], [], [], 0⟩).1 ⟨"a.png", "", some "output"⟩ (by decide)



theorem b64_dec_enc : ∀ n : Nat, n < 64 → b64DecChar (b64EncChar n) = some n := by decide

theorem b64_enc_ne_pad : ∀ n : Nat, n < 64 → ¬(b64EncChar n = b64Pad) := by decide

theorem b64_roundtrip_len : ∀ (fuel : Nat) (bs : List Nat), bs.length ≤ fuel →
    (∀ b ∈ bs, b < 256) → b64decodeChars (b64encode bs) = some bs := by
  intro fuel
  induction fuel with
  | zero =>
    intro bs hlen hb
    cases bs with
    | nil => rfl
    | cons a t => simp at hlen
  | succ n ih =>
    intro bs hlen hb
    match bs with
    | [] => rfl
    | [a] =>
      have ha : a < 256 := hb a (by simp)
      have h0 := b64_dec_enc (a / 4) (by omega)
      have h1 := b64_dec_enc (a % 4 * 16) (by omega)
      simp only [b64encode, b64decodeChars, h0, h1]
      split
      · simp only [Option.some.injEq, List.cons.injEq, and_true]
        omega
      · next hcond => exact absurd (by simp) hcond
    | [a, b] =>
      have ha : a < 256 := hb a (by simp)
      have hbb : b < 256 := hb b (by simp)
      have h0 := b64_dec_enc (a / 4) (by omega)
      have h1 := b64_dec_enc (a % 4 * 16 + b / 16) (by omega)
      have h2 := b64_dec_enc (b % 16 * 4) (by omega)
      have hne2 := b64_enc_ne_pad (b % 16 * 4) (by omega)
      simp only [b64encode, b64decodeChars, h0, h1]
      split
      · next hcond => exact absurd hcond.1 hne2
      · simp only [h2]
        split
        · simp only [Option.some.injEq, List.cons.injEq, and_true]
          refine ⟨by omega, by omega⟩
        · next hcond => exact absurd (by simp) hcond
    | a :: b :: c :: rest =>
      have ha : a < 256 := hb a (by simp)
      have hbb : b < 256 := hb b (by simp)
      have hcc : c < 256 := hb c (by simp)
      have hrest : b64decodeChars (b64encode rest) = some rest := by
        apply ih rest
        · simp only [List.length_cons] at hlen; omega
        · intro x hx; exact hb x (by simp [hx])
      have h0 := b64_dec_enc (a / 4) (by omega)
      have h1 := b64_dec_enc (a % 4 * 16 + b / 16) (by omega)
      have h2 := b64_dec_enc (b % 16 * 4 + c / 64) (by omega)
      have h3 := b64_dec_enc (c % 64) (by omega)
      have hne2 := b64_enc_ne_pad (b % 16 * 4 + c / 64) (by omega)
      have hne3 := b64_enc_ne_pad (c % 64) (by omega)
      simp only [b64encode, b64decodeChars, h0, h1]
      split
      · next hcond => exact absurd hcond.1 hne2
      · simp only [h2]
        split
        · next hcond => exact absurd hcond.1 hne3
        · simp only [h3, hrest]
          simp only [Option.some.injEq, List.cons.injEq]
          refine ⟨by omega, by omega, by omega, by simp⟩

/-- C9: publishing fetched artifact bytes inline base64-encodes them into
the output item, and base64-decoding the returned payload yields exactly
the original bytes. -/
theorem inline_publish_roundtrip (filename : String) (bs : List Nat)
    (h : ∀ b ∈ bs, b < 256) :
    b64decodeString (publishInline filename bs).data = some bs :=
  b64_roundtrip_len bs.length bs (Nat.le_refl _) h

/-- C9 witness: a concrete byte sequence survives the inline publish and
decode round trip. -/
theorem inline_publish_roundtrip_witness :
    b64decodeString (publishInline "ComfyUI_00001_.png" [0, 77, 255, 10]).data =
      some [0, 77, 255, 10] :=
  inline_publish_roundtrip "ComfyUI_00001_.png" [0, 77, 255, 10] (by decide)

theorem uploadLoop_spec (env : MediaItem → ItemEnv) :
    ∀ (l : List MediaItem) (rs es : List String),
      uploadLoop env l (rs, es) = (rs ++ oksOf env l, es ++ errsOf env l) := by
  intro l
  induction l with
  | nil => intro rs es; simp [uploadLoop, oksOf, errsOf]
  | cons m rest ih =>
    intro rs es
    cases hp : processMediaItem (env m) m with
    | ok s =>
      simp only [uploadLoop, hp]
      rw [ih (rs ++ [s]) es]
      simp [oksOf, errsOf, itemErr, List.filterMap_cons, hp]
    | error e =>
      simp only [uploadLoop, hp]
      rw [ih rs (es ++ [e])]
      simp [oksOf, errsOf, itemErr, List.filterMap_cons, hp]

theorem itemErr_badtype (env : ItemEnv) (m : MediaItem)
    (hbad : m.mtype = none ∨
      ∀ t, m.mtype = some t → t ≠ "base64" ∧ t ≠ "web" ∧ t ≠ "s3") :
    ∃ e, itemErr env m = some e := by
  cases hn : m.name with
  | none =>
    exact ⟨"Unexpected error uploading unknown: KeyError name",
      by simp [itemErr, processMediaItem, hn]⟩
  | some name =>
    cases hmd : m.media with
    | none =>
      exact ⟨"Unexpected error uploading " ++ name ++ ": KeyError media",
        by simp [itemErr, processMediaItem, hn, hmd]⟩
    | some d =>
      cases hmt : m.mtype with
      | none =>
        exact ⟨"Unexpected error uploading " ++ name ++ ": KeyError type",
          by simp [itemErr, processMediaItem, hn, hmd, hmt]⟩
      | some t =>
        have hbad2 : ∀ u, m.mtype = some u → u ≠ "base64" ∧ u ≠ "web" ∧ u ≠ "s3" := by
          rcases hbad with hb1 | hb2
          · rw [hmt] at hb1; exact absurd hb1 (fun hh => Option.noConfusion hh)
          · exact hb2
        obtain ⟨hb1, hb2, hb3⟩ := hbad2 t hmt
        have hred : processMediaItem env m =
            .error ("Unexpected error uploading " ++ name ++ ": Unknown media type " ++ t) := by
          simp [processMediaItem, hn, hmd, hmt, hb1, hb2, hb3]
        exact ⟨"Unexpected error uploading " ++ name ++ ": Unknown media type " ++ t,
          by simp [itemErr, hred]⟩

/-- C10: for every non-empty media list whose items each carry `name` and
`media`, `upload_media` returns a report (it never raises): an item whose
`type` is missing or unrecognized contributes a per-item error to the
report details rather than crashing or being silently skipped, and the
overall status is "error" exactly when at least one item failed. -/
theorem upload_media_report (env : MediaItem → ItemEnv) (items : List MediaItem)
    (hne : items ≠ [])
    (hvalid : ∀ m ∈ items, m.name.isSome ∧ m.media.isSome) :
    ((upload_media env items).status = "error" ↔
      ∃ m ∈ items, itemErr (env m) m ≠ none) ∧
    (∀ m ∈ items,
      (m.mtype = none ∨
        ∀ t, m.mtype = some t → t ≠ "base64" ∧ t ≠ "web" ∧ t ≠ "s3") →
      ∃ e, itemErr (env m) m = some e ∧ e ∈ (upload_media env items).details) := by
  cases items with
  | nil => exact absurd rfl hne
  | cons m0 rest =>
    cases herr : errsOf env (m0 :: rest) with
    | nil =>
      have hrep : upload_media env (m0 :: rest) =
          ⟨"success", "All media uploaded successfully", oksOf env (m0 :: rest)⟩ := by
        simp only [upload_media]
        rw [uploadLoop_spec env (m0 :: rest) [] []]
        simp [herr]
      constructor
      · rw [hrep]
        constructor
        · intro hst; simp at hst
        · rintro ⟨m, hm, hfail⟩
          exfalso
          obtain ⟨e, he⟩ := Option.ne_none_iff_exists'.mp hfail
          have hmem : e ∈ errsOf env (m0 :: rest) :=
            List.mem_filterMap.mpr ⟨m, hm, he⟩
          rw [herr] at hmem
          exact absurd hmem (List.not_mem_nil e)
      · intro m hm hbad
        exfalso
        obtain ⟨e, he⟩ := itemErr_badtype (env m) m hbad
        have hmem : e ∈ errsOf env (m0 :: rest) :=
          List.mem_filterMap.mpr ⟨m, hm, he⟩
        rw [herr] at hmem
        exact absurd hmem (List.not_mem_nil e)
    | cons e0 es0 =>
      have hrep : upload_media env (m0 :: rest) =
          ⟨"error", "Some media failed to upload", e0 :: es0⟩ := by
        simp only [upload_media]
        rw [uploadLoop_spec env (m0 :: rest) [] []]
        simp [herr]
      constructor
      · rw [hrep]
        constructor
        · intro _
          have hmem : e0 ∈ errsOf env (m0 :: rest) := by
            rw [herr]; exact List.mem_cons_self e0 es0
          obtain ⟨m, hm, he⟩ := List.mem_filterMap.mp hmem
          refine ⟨m, hm, ?_⟩
          rw [he]
          exact fun hh => Option.noConfusion hh
        · intro _; rfl
      · intro m hm hbad
        obtain ⟨e, he⟩ := itemErr_badtype (env m) m hbad
        refine ⟨e, he, ?_⟩
        rw [hrep]
        have hmem : e ∈ errsOf env (m0 :: rest) :=
          List.mem_filterMap.mpr ⟨m, hm, he⟩
        rw [herr] at hmem
        exact hmem

/-- C10 witness: one item carrying `name` and `media` but no `type` key
yields an error-status report. -/
theorem upload_media_report_witness :
    (upload_media (fun _ => ⟨true, true, true, true⟩)
        [{ name := some "in.png", media := some "QUJD", mtype := none }]).status = "error" :=
  ((upload_media_report (fun _ => ⟨true, true, true, true⟩)
      [{ name := some "in.png", media := some "QUJD", mtype := none }]
      (by decide) (by decide)).1).mpr
    ⟨{ name := some "in.png", media := some "QUJD", mtype := none },
      List.mem_singleton_self _, by decide⟩


end ComfyWorker
